import Mathlib

set_option maxRecDepth 8000

/-!
Verification development for the `tourust` interactive symbol finder.

The Rust sources embedded here are `src/app.rs`, `src/main.rs`, `src/nvim.rs`
and `src/error.rs`.  Pure logic is translated directly; the external crates the
code calls into (`syn`/`proc_macro2` parse data, the `fuzzy_matcher` clangd
scorer, the `priority_queue` heap, the `ratatui` list state and the `nvim_rs`
RPC surface) are modelled explicitly at their interface, with each model's
assumptions documented on its definition.
-/

/-- Position data of a `proc_macro2` span as read through
`Spanned::span().start()` and `span().source_text()` in `src/app.rs`:
`line` is the 1-indexed line and `column` the 0-indexed column (the
`proc_macro2::LineColumn` convention), and `sourceText` is the result of
`source_text()` (`none` when the span has no underlying source text, e.g. the
empty span of an inherited visibility). -/
structure Span where
  line : Nat
  column : Nat
  sourceText : Option String
deriving Repr, DecidableEq

/-- `src/app.rs` `struct Ref`: one indexed declaration.  `PathBuf` is modelled
as `String`. -/
structure Ref where
  line : Nat
  column : Nat
  file : String
  sig : String
deriving Repr, DecidableEq, Inhabited

/-- The `syn::Item` variants, carrying exactly the data `src/app.rs` reads from
them: the visibility span, identifier (its `Display` rendering and its span),
the spans whose `start()`/`source_text()` are used, and for modules the
optional inline body.  The four variants classified irrelevant by
`IsRelevant::is_relevant` carry no data because the code never reads any. -/
inductive Item where
  | fnItem (vis : Span) (sig : Span)
  | modItem (vis : Span) (identName : String) (ident : Span) (content : Option (List Item))
  | enumItem (vis : Span) (identName : String) (ident : Span)
  | traitItem (vis : Span) (identName : String) (ident : Span)
  | structItem (vis : Span) (identName : String) (ident : Span)
  | unionItem (vis : Span) (ident : Span)
  | useItem (itemSpan : Span)
  | typeItem (itemSpan : Span)
  | implItem (selfTy : Span) (traitSeg : Option Span)
  | constItem (itemSpan : Span)
  | macItem (ident : Span)
  | staticItem (itemSpan : Span)
  | traitAliasItem
  | verbatimItem
  | foreignModItem
  | externCrateItem

/-- `src/app.rs` `impl IsRelevant for Item`: everything is relevant except
`TraitAlias`, `Verbatim`, `ForeignMod` and `ExternCrate`. -/
def Item.is_relevant : Item → Bool
  | .traitAliasItem => false
  | .verbatimItem => false
  | .foreignModItem => false
  | .externCrateItem => false
  | _ => true

/-- `src/app.rs` `ItemDisplay::display`, the `vis.span().source_text()
.map_or(String::new(), |e| e + " ")` prefix shared by several arms. -/
def visPrefix (vis : Span) : String :=
  match vis.sourceText with
  | some e => e ++ " "
  | none => ""

/-- `src/app.rs` `impl ItemDisplay for Item`: the rendered one-line signature
per item kind (the match target and display label).  Note that the `Union` arm
uses `unwrap_or("")` with no trailing space, unlike the other
visibility-prefixed arms. -/
def Item.display : Item → String
  | .fnItem vis sig => visPrefix vis ++ sig.sourceText.getD "MISSING SOURCE TEXT"
  | .modItem vis identName _ _ => visPrefix vis ++ "mod " ++ identName
  | .enumItem vis identName _ => visPrefix vis ++ "enum " ++ identName
  | .traitItem vis identName _ => visPrefix vis ++ "trait " ++ identName
  | .structItem vis identName _ => visPrefix vis ++ "struct " ++ identName
  | .unionItem vis ident => vis.sourceText.getD "" ++ "union " ++ ident.sourceText.getD "UNKNOWN"
  | .useItem s => s.sourceText.getD "UNKNOWN"
  | .typeItem s => s.sourceText.getD "UNKNOWN"
  | .implItem selfTy traitSeg =>
      match traitSeg with
      | some seg => "impl " ++ seg.sourceText.getD "UNKNOWN" ++ " for " ++ selfTy.sourceText.getD "UNKNOWN"
      | none => "impl " ++ selfTy.sourceText.getD "UNKNOWN"
  | .constItem s => s.sourceText.getD "UNKNOWN"
  | .macItem ident => ident.sourceText.getD "UNKNOWN"
  | .staticItem s => s.sourceText.getD "UNKNOWN"
  | .traitAliasItem => "IRRELEVANT"
  | .verbatimItem => "IRRELEVANT"
  | .foreignModItem => "IRRELEVANT"
  | .externCrateItem => "IRRELEVANT"

/-- `src/app.rs` `impl From<(Item, PathBuf)> for Ref`: line/column come from
the per-variant span (`sig` for functions, `ident` for modules, enums, traits,
structs, macros and unions, `self_ty` for impls, the whole item span for use,
type, const and static items); the signature is `value.0.display()`.  The
wildcard arm executes `unimplemented!()`, modelled as `none`. -/
def refFrom (item : Item) (file : String) : Option Ref :=
  let sig := item.display
  match item with
  | .fnItem _ s => some { line := s.line, column := s.column, file := file, sig := sig }
  | .modItem _ _ ident _ => some { line := ident.line, column := ident.column, file := file, sig := sig }
  | .enumItem _ _ ident => some { line := ident.line, column := ident.column, file := file, sig := sig }
  | .traitItem _ _ ident => some { line := ident.line, column := ident.column, file := file, sig := sig }
  | .structItem _ _ ident => some { line := ident.line, column := ident.column, file := file, sig := sig }
  | .unionItem _ ident => some { line := ident.line, column := ident.column, file := file, sig := sig }
  | .useItem s => some { line := s.line, column := s.column, file := file, sig := sig }
  | .typeItem s => some { line := s.line, column := s.column, file := file, sig := sig }
  | .implItem selfTy _ => some { line := selfTy.line, column := selfTy.column, file := file, sig := sig }
  | .constItem s => some { line := s.line, column := s.column, file := file, sig := sig }
  | .macItem ident => some { line := ident.line, column := ident.column, file := file, sig := sig }
  | .staticItem s => some { line := s.line, column := s.column, file := file, sig := sig }
  | .traitAliasItem => none
  | .verbatimItem => none
  | .foreignModItem => none
  | .externCrateItem => none

mutual
/-- `src/app.rs` `App::recursive_find_refs`: skip irrelevant items, push the
item's own record, then recurse into an inline module body; impl blocks are
deliberately not descended into.  `none` models a panic (the `unimplemented!()`
reached through `.into()`); the code's `Result` is otherwise always `Ok`.
The source checks relevance, converts, and then matches on the item once; the
module-with-body case is lifted to the outer match here so the recursion is
structural, with the same relevance test and conversion repeated in it. -/
def recursive_find_refs : Item → List Ref → String → Option (List Ref)
  | .modItem vis identName ident (some content), refs, file =>
    if !(Item.modItem vis identName ident (some content)).is_relevant then some refs
    else
      match refFrom (Item.modItem vis identName ident (some content)) file with
      | none => none
      | some r => recursive_find_refs_list content (refs ++ [r]) file
  | item, refs, file =>
    if !item.is_relevant then some refs
    else
      match refFrom item file with
      | none => none
      | some r => some (refs ++ [r])

/-- The `for item in content.1` loop body of `App::recursive_find_refs`. -/
def recursive_find_refs_list (items : List Item) (refs : List Ref) (file : String) : Option (List Ref) :=
  match items with
  | [] => some refs
  | i :: rest =>
    match recursive_find_refs i refs file with
    | none => none
    | some refs' => recursive_find_refs_list rest refs' file
end

/-- `src/error.rs` `enum Error` (error payloads omitted; only the variant
identity matters to the claims below). -/
inductive Error where
  | io | syn | nvim | bat | logger | translate | utf8 | noWindow
deriving Repr, DecidableEq

/-- The `for file in files` loop of `src/app.rs` `App::find_refs`.  A scanned
file is modelled as its path paired with the combined outcome of
`fs::read_to_string` and `syn::parse_file` (both external): `Except.error` for
an I/O or parse failure, `Except.ok items` for the parsed item list.  The `?`
operators propagate the first failure out of the whole function; the outer
`none` models a panic inside `recursive_find_refs`. -/
def find_refs_go : List (String × Except Error (List Item)) → List Ref → Option (Except Error (List Ref))
  | [], refs => some (Except.ok refs)
  | (file, parsed) :: rest, refs =>
    match parsed with
    | Except.error e => some (Except.error e)
    | Except.ok items =>
      match recursive_find_refs_list items refs file with
      | none => none
      | some refs' => find_refs_go rest refs'

/-- `src/app.rs` `App::find_refs`, starting from the empty record list. -/
def find_refs (files : List (String × Except Error (List Item))) : Option (Except Error (List Ref)) :=
  find_refs_go files []

/-- The `syn` parse of the C4 scenario file: line 5, column 1 (1-based) holds
`pub fn add(a: i32, b: i32) -> i32 { a + b }`, so the file yields a single
`Item::Fn` whose visibility span starts at `proc_macro2` position line 5,
column 0 (0-indexed; `pub` is the first character of the line) with source
text "pub", and whose signature span starts at line 5, column 4 (`fn` is the
fifth character of the line) with source text
"fn add(a: i32, b: i32) -> i32". -/
def addFileItem : Item :=
  Item.fnItem
    { line := 5, column := 0, sourceText := some "pub" }
    { line := 5, column := 4, sourceText := some "fn add(a: i32, b: i32) -> i32" }

/-- Subsequence test on character lists (non-contiguous, order-preserving):
the match criterion of a fuzzy subsequence scorer. -/
def isSubseqChars : List Char → List Char → Bool
  | [], _ => true
  | _ :: _, [] => false
  | a :: as, b :: bs => if a = b then isSubseqChars as bs else isSubseqChars (a :: as) bs

/-- ASCII lower-casing of one character (the scorer compares
case-insensitively; only ASCII signatures occur in the claims below). -/
def charLower (c : Char) : Char :=
  if 65 ≤ c.toNat ∧ c.toNat ≤ 90 then Char.ofNat (c.toNat + 32) else c

/-- Modelled from the spec: the external `fuzzy_matcher::clangd::fuzzy_match`
scorer called in `src/main.rs` and `src/app.rs` is not part of this
repository.  Per the spec it is "a fuzzy subsequence/substring scorer" that
compares the query against each record's signature, "records with no match
(score undefined)" are excluded (`none` here), and for the empty query "every
record matches (trivial/zero score)".  The model matches exactly when the
query is a case-insensitive subsequence of the signature; the particular
positive score the crate assigns is irrelevant to every claim below (only
matched/unmatched and the zero score of the empty query matter), so a match
is scored by the query length (0 for the empty query, as the spec states). -/
def fuzzy_match (choice pattern : String) : Option Int :=
  if isSubseqChars (pattern.toList.map charLower) (choice.toList.map charLower) then
    some (Int.ofNat pattern.length)
  else none

/-- `KeyCode::Char` re-rank in `src/main.rs` `main` (and `src/app.rs`
`App::run`): `filter_map` keeps only the records whose signature
fuzzy-matches the new input, paired with their score, in index order.  The
subsequent `collect` into the `PriorityQueue` and its display order are
modelled by `into_sorted_list` below. -/
def rankAppend (refs : List Ref) (input : String) : List (Ref × Int) :=
  refs.filterMap (fun elem => (fuzzy_match elem.sig input).map (fun prio => (elem, prio)))

/-- `KeyCode::Backspace` re-rank in `src/main.rs` `main` (and `src/app.rs`
`App::run`): `map` keeps EVERY record, with
`fuzzy_match(&elem.sig, &input).unwrap_or_default()`, i.e. score 0 for the
records that do not match. -/
def rankBackspace (refs : List Ref) (input : String) : List (Ref × Int) :=
  refs.map (fun elem => (elem, (fuzzy_match elem.sig input).getD 0))

/-- `src/app.rs` `App::new`: the initial search results pair every record with
score 0 (`refs.iter().map(|elem| (elem.to_owned(), 0)).collect()`). -/
def initialResults (refs : List Ref) : List (Ref × Int) :=
  refs.map (fun elem => (elem, 0))

/-- The query-relevant fields of `src/app.rs` `struct App`: the immutable
record index, the current input, and the current search-result pairs (the
contents collected into the `PriorityQueue<Ref, i64>`, in index order; the
queue's display order is modelled separately by `into_sorted_list`). -/
structure AppState where
  refs : List Ref
  input : String
  results : List (Ref × Int)
deriving Repr, DecidableEq

/-- Rust `String::pop`: remove the last character (no-op on the empty
string). -/
def strPop (s : String) : String := String.mk s.toList.dropLast

/-- `KeyCode::Char(ch)` event: push the character onto the query and re-rank
through the filtering path. -/
def appendStep (s : AppState) (ch : Char) : AppState :=
  { s with input := s.input.push ch, results := rankAppend s.refs (s.input.push ch) }

/-- `KeyCode::Backspace` event: pop the last query character and re-rank
through the non-filtering path. -/
def backspaceStep (s : AppState) : AppState :=
  { s with input := strPop s.input, results := rankBackspace s.refs (strPop s.input) }

/-- `App::new` (query-relevant part): empty input, every record at score 0. -/
def initialApp (refs : List Ref) : AppState :=
  { refs := refs, input := "", results := initialResults refs }

/-- Default pair for the positional list operations of the heap model (all
accesses below are in bounds, so it is never observed). -/
def dRef : Ref × Int := (default, 0)

/-- `Vec::swap` inside the external `priority_queue` crate's heap. -/
def lswap (l : List (Ref × Int)) (i j : Nat) : List (Ref × Int) :=
  (l.set i (l.getD j dRef)).set j (l.getD i dRef)

/-- Model of the `priority_queue` crate's sift-down (`heapify`): find the
child with the strictly greatest priority, swap if it beats the parent, and
continue from there; priorities are compared with strict `>` only, so
equal-priority elements never move.  `fuel` bounds the descent; any fuel at
least the list length is enough. -/
def heapifyDown : Nat → List (Ref × Int) → Nat → List (Ref × Int)
  | 0, l, _ => l
  | fuel + 1, l, i =>
    let lc := 2 * i + 1
    let rc := 2 * i + 2
    let largest := if lc < l.length ∧ (l.getD lc dRef).2 > (l.getD i dRef).2 then lc else i
    let largest' := if rc < l.length ∧ (l.getD rc dRef).2 > (l.getD largest dRef).2 then rc else largest
    if largest' = i then l else heapifyDown fuel (lswap l i largest') largest'

/-- Model of the `priority_queue` crate's `FromIterator` heap construction
(`heap_build`): Floyd's bottom-up build, sifting down from the last parent
index to the root.  The backing index map assigns slots in insertion order,
so the starting layout is the collected list itself. -/
def heapBuild (l : List (Ref × Int)) : List (Ref × Int) :=
  ((List.range (l.length / 2)).reverse).foldl (fun acc i => heapifyDown acc.length acc i) l

/-- Model of repeated `PriorityQueue::pop`: return the root, swap it with the
last slot, shrink by one, sift the new root down. -/
def popAll : Nat → List (Ref × Int) → List (Ref × Int)
  | 0, _ => []
  | _ + 1, [] => []
  | _ + 1, [x] => [x]
  | fuel + 1, x :: y :: rest =>
    let l := x :: y :: rest
    let rest' := (lswap l 0 (l.length - 1)).dropLast
    l.getD 0 dRef :: popAll fuel (heapifyDown rest'.length rest' 0)

/-- The display order of the search results.  `src/tui.rs` `ui` lists
`search_results.clone().into_sorted_iter()`, `App::get_selected_ref` reads
`into_sorted_iter().nth(i)`, and the `src/main.rs` confirm branch indexes
`into_sorted_vec()`: all three read the queue's descending-priority pop
order.  Every heap operation of the crate compares priorities only and the
index map hands out slots in insertion order, so this order is a
deterministic function of the collected `(item, priority)` list. -/
def into_sorted_list (xs : List (Ref × Int)) : List (Ref × Int) :=
  popAll (heapBuild xs).length (heapBuild xs)

/-- `PriorityQueue::into_sorted_vec`: the popped items without their
priorities. -/
def into_sorted_vec (xs : List (Ref × Int)) : List Ref :=
  (into_sorted_list xs).map Prod.fst

/-- The full ranking pipeline applied to one keystroke's query: score and
filter every record against the query, collect into the priority queue, read
back the descending-priority display order. -/
def rankedOrder (refs : List Ref) (q : String) : List (Ref × Int) :=
  into_sorted_list (rankAppend refs q)

/-- Rust `usize::MAX`: the value `ratatui`'s `ListState::select_previous`
stores when nothing was selected; the render pass clamps it to the last
item. -/
def USIZE_MAX : Nat := 2 ^ 64 - 1

/-- Model of `ratatui::widgets::ListState::select_next` (used for Down /
Tab / Ctrl-j): select 0 when nothing selected, else saturating-add one; the
possibly out-of-range value is corrected at the next render. -/
def select_next (sel : Option Nat) : Option Nat :=
  some (match sel with | none => 0 | some i => i + 1)

/-- Model of `ratatui::widgets::ListState::select_previous` (Up / BackTab /
Ctrl-k): select `usize::MAX` when nothing selected (clamped to the last item
at the next render), else saturating-subtract one. -/
def select_previous (sel : Option Nat) : Option Nat :=
  some (match sel with | none => USIZE_MAX | some i => i - 1)

/-- Model of the selection correction `ratatui`'s stateful `List` widget
performs on every render (`terminal.draw(|f| tui::ui(f, app))` runs at the
top of each loop iteration in `src/main.rs`, before the event is read): an
empty list clears the selection, and a selected index is clamped to the last
item of the displayed list. -/
def renderClamp (len : Nat) (sel : Option Nat) : Option Nat :=
  if len = 0 then none else sel.map (fun i => min i (len - 1))

/-- Outcome of the `KeyCode::Enter` arm of `src/main.rs` `main`. -/
inductive ConfirmOutcome where
  | continueEditing
  | selected (r : Ref)
  | panicked
deriving Repr, DecidableEq

/-- `src/main.rs` Enter handling: `app.search_result_state.selected()` of
`None` means `continue` (remain editing); `Some(i)` indexes
`into_sorted_vec()[i]`, whose out-of-bounds case would be a panic. -/
def confirmStep (results : List (Ref × Int)) (sel : Option Nat) : ConfirmOutcome :=
  match sel with
  | none => ConfirmOutcome.continueEditing
  | some i =>
    match (into_sorted_vec results)[i]? with
    | some r => ConfirmOutcome.selected r
    | none => ConfirmOutcome.panicked

/-- An Enter event as the loop delivers it: every iteration draws the frame —
clamping the selection against the currently displayed list, whose length is
`(into_sorted_list results).length` — and only then reads the event. -/
def confirmAfterRender (results : List (Ref × Int)) (sel : Option Nat) : ConfirmOutcome :=
  confirmStep results (renderClamp (into_sorted_list results).length sel)

/-- One Neovim buffer as the navigation code observes it over RPC: its
handle, its name (`get_name`), its `buflisted` option, and its `buftype`
option (the empty string means a normal editable buffer). -/
structure Buf where
  id : Nat
  name : String
  listed : Bool
  buftype : String
deriving Repr, DecidableEq

/-- One Neovim window: its handle, the buffer it shows, and its cursor. -/
structure Win where
  id : Nat
  buf : Nat
  cursor : Nat × Nat
deriving Repr, DecidableEq

/-- The observable Neovim state the navigation code touches: buffer list,
window list, current window, current buffer.  Remote calls are modelled as
succeeding (an answering editor); `echo` output changes no modelled state. -/
structure Editor where
  bufs : List Buf
  wins : List Win
  curWin : Nat
  curBuf : Nat
deriving Repr, DecidableEq

/-- `Window::hide`: the window is closed; when it was the current window the
editor makes another one current (modelled as the first remaining window;
kept unchanged in the degenerate no-window-left state). -/
def hideWin (e : Editor) (w : Nat) : Editor :=
  let wins' := e.wins.filter (fun win => win.id ≠ w)
  { e with
    wins := wins'
    curWin :=
      if e.curWin = w then ((wins'.head?).map (fun win => win.id)).getD e.curWin
      else e.curWin }

/-- `Buffer::set_option("buflisted", Value::Boolean(true))`. -/
def setListed (e : Editor) (b : Nat) : Editor :=
  { e with bufs := e.bufs.map (fun buf => if buf.id = b then { buf with listed := true } else buf) }

/-- `Window::set_buf` on the window with handle `w`. -/
def winSetBuf (e : Editor) (w : Nat) (b : Nat) : Editor :=
  { e with wins := e.wins.map (fun win => if win.id = w then { win with buf := b } else win) }

/-- `Window::set_cursor` on the window with handle `w`. -/
def winSetCursor (e : Editor) (w : Nat) (pos : Nat × Nat) : Editor :=
  { e with wins := e.wins.map (fun win => if win.id = w then { win with cursor := pos } else win) }

/-- `src/nvim.rs` `select_callback`: hide the current window; list the
windows (their buffer names are only echoed); walk `list_bufs` and, at the
first buffer whose name equals the selection's file, mark it buflisted and
show it in the (new) current window; finally set the current window's cursor
to the record's `(line, column)`.  The `to_str().ok_or(Error::Utf8)` check
cannot fire here because file paths are modelled as valid text, and no other
failure is produced by the function itself when the editor answers — in
particular it never constructs `Error::NoWindow`, performs no `buftype`
check, and never creates a buffer (`find_or_open_buf` below is not called). -/
def select_callback (e : Editor) (selection : Ref) : Except Error Editor :=
  let e1 := hideWin e e.curWin
  let e2 :=
    match e1.bufs.find? (fun buf => buf.name = selection.file) with
    | some buf => winSetBuf (setListed e1 buf.id) e1.curWin buf.id
    | none => e1
  Except.ok (winSetCursor e2 e2.curWin (selection.line, selection.column))

/-- The buffer handle `nvim_create_buf` hands out: fresh, larger than every
existing handle. -/
def freshBufId (e : Editor) : Nat :=
  (e.bufs.map (fun buf => buf.id)).foldr max 0 + 1

/-- `src/nvim.rs` `find_or_open_buf` (defined but never called): reuse the
first buffer whose name equals the selection's file, marking it buflisted;
otherwise remember the current buffer, `create_buf(true, false)` (a listed,
non-scratch, empty and unnamed buffer), make it current, run
`edit <file>` — Neovim loads the file into the current unnamed empty buffer,
binding its name — and restore the previously current buffer. -/
def find_or_open_buf (e : Editor) (selection : Ref) : Except Error (Editor × Nat) :=
  match e.bufs.find? (fun buf => buf.name = selection.file) with
  | some buf => Except.ok (setListed e buf.id, buf.id)
  | none =>
    let prevBuf := e.curBuf
    let newId := freshBufId e
    let e1 := { e with bufs := e.bufs ++ [({ id := newId, name := "", listed := true, buftype := "" } : Buf)] }
    let e2 := { e1 with curBuf := newId }
    let e3 := { e2 with bufs := e2.bufs.map (fun (buf : Buf) =>
        if buf.id = e2.curBuf then { buf with name := selection.file } else buf) }
    Except.ok ({ e3 with curBuf := prevBuf }, newId)

/-- The candidate filter of `src/nvim.rs` `select_window` (defined but never
called; its call site is commented out): a window can be offered for
selection exactly when its buffer's `buftype` option is the empty string. -/
def selectableWindows (e : Editor) : List Win :=
  e.wins.filter (fun win =>
    match e.bufs.find? (fun buf => buf.id = win.buf) with
    | some buf => buf.buftype = ""
    | none => false)

mutual
/-- Every item either fails the relevance test or is handled by `refFrom`, so
`recursive_find_refs` never hits the `unimplemented!()` branch. -/
theorem recursive_find_refs_isSome (item : Item) (refs : List Ref) (file : String) :
    (recursive_find_refs item refs file).isSome = true := by
  cases item with
  | fnItem vis sig => rfl
  | modItem vis identName ident content =>
    cases content with
    | none => rfl
    | some items =>
      simpa [recursive_find_refs, Item.is_relevant, refFrom] using
        recursive_find_refs_list_isSome items _ file
  | enumItem vis identName ident => rfl
  | traitItem vis identName ident => rfl
  | structItem vis identName ident => rfl
  | unionItem vis ident => rfl
  | useItem s => rfl
  | typeItem s => rfl
  | implItem selfTy traitSeg => rfl
  | constItem s => rfl
  | macItem ident => rfl
  | staticItem s => rfl
  | traitAliasItem => rfl
  | verbatimItem => rfl
  | foreignModItem => rfl
  | externCrateItem => rfl

/-- The module-body extraction loop never panics either. -/
theorem recursive_find_refs_list_isSome (items : List Item) (refs : List Ref) (file : String) :
    (recursive_find_refs_list items refs file).isSome = true := by
  cases items with
  | nil => rfl
  | cons i rest =>
    have h := recursive_find_refs_isSome i refs file
    rw [recursive_find_refs_list]
    cases hh : recursive_find_refs i refs file with
    | none => rw [hh] at h; simp at h
    | some refs' => exact recursive_find_refs_list_isSome rest refs' file
end

/-- Every relevant item is converted by a handled match arm. -/
theorem refFrom_isSome_of_relevant (item : Item) (file : String)
    (h : item.is_relevant = true) : (refFrom item file).isSome = true := by
  cases item <;> first | rfl | exact absurd h (by decide)

/-- C10: for every `syn::Item` for which `is_relevant()` returns true, the
conversion into a `Ref` takes a handled match arm, and consequently the
`unimplemented!()` branch of the conversion is unreachable during extraction:
`recursive_find_refs` always returns a result. -/
theorem C10_relevant_items_convert (item : Item) (file : String) (refs : List Ref) :
    (item.is_relevant = true → (refFrom item file).isSome = true) ∧
    (recursive_find_refs item refs file).isSome = true :=
  ⟨refFrom_isSome_of_relevant item file, recursive_find_refs_isSome item refs file⟩

/-- C10 witness: the conversion is defined at a concrete relevant item. -/
theorem C10_relevant_items_convert_witness :
    ((Item.structItem ⟨1, 0, none⟩ "Bar" ⟨1, 7, some "Bar"⟩).is_relevant = true →
      (refFrom (Item.structItem ⟨1, 0, none⟩ "Bar" ⟨1, 7, some "Bar"⟩) "f.rs").isSome = true) ∧
    (recursive_find_refs (Item.structItem ⟨1, 0, none⟩ "Bar" ⟨1, 7, some "Bar"⟩) [] "f.rs").isSome = true :=
  C10_relevant_items_convert (Item.structItem ⟨1, 0, none⟩ "Bar" ⟨1, 7, some "Bar"⟩) "f.rs" []

/-- C4 counterexample: extracting the scenario file yields exactly one record
with the claimed signature and line, but its `column` is 4 (the 0-indexed
column of the signature's first token, per `proc_macro2::LineColumn`), not the
claimed 1-based value 1. -/
theorem C4_counterexample :
    recursive_find_refs_list [addFileItem] [] "f.rs"
      = some [{ line := 5, column := 4, file := "f.rs",
                sig := "pub fn add(a: i32, b: i32) -> i32" }] ∧
    ({ line := 5, column := 4, file := "f.rs",
       sig := "pub fn add(a: i32, b: i32) -> i32" } : Ref).column ≠ 1 := by
  exact ⟨rfl, by decide⟩

/-- C4 amended: a record's `line` is the 1-based line and `column` the
0-based column (the `proc_macro2` convention) of the declaration's defining
token, the signature start for a function; the scenario file yields exactly
one record with signature "pub fn add(a: i32, b: i32) -> i32", line 5 and
column 4. -/
theorem C4_scenario_record :
    recursive_find_refs addFileItem [] "f.rs"
      = some [{ line := 5, column := 4, file := "f.rs",
                sig := "pub fn add(a: i32, b: i32) -> i32" }] := by
  rfl

/-- C5 counterexample: building the index over a parse-failing file followed by
a well-formed file aborts the whole build with the parse error; the
well-formed file's record is extracted nowhere, contradicting "extraction of
the remaining files continues". -/
theorem C5_counterexample :
    find_refs [("bad.rs", Except.error Error.syn),
               ("good.rs", Except.ok [Item.structItem ⟨1, 0, none⟩ "Bar" ⟨1, 7, some "Bar"⟩])]
      = some (Except.error Error.syn) := by
  rfl

/-- C5 amended: a file that fails to read or parse aborts the ENTIRE index
build, not just that file: whenever any scanned file's outcome is an error,
`find_refs` surfaces an error and produces no record list at all. -/
theorem C5_parse_error_aborts_build (files : List (String × Except Error (List Item)))
    (f : String) (e : Error) (h : (f, Except.error e) ∈ files) :
    ∃ e', find_refs files = some (Except.error e') := by
  suffices h' : ∀ (fs : List (String × Except Error (List Item))) (refs : List Ref),
      (f, Except.error e) ∈ fs → ∃ e', find_refs_go fs refs = some (Except.error e') by
    exact h' files [] h
  intro fs
  induction fs with
  | nil => intro refs h0; simp at h0
  | cons hd tl ih =>
    intro refs h0
    obtain ⟨path, parsed⟩ := hd
    cases parsed with
    | error e'' => exact ⟨e'', rfl⟩
    | ok items =>
      have hmem : (f, Except.error e) ∈ tl := by
        rcases List.mem_cons.mp h0 with h1 | h1
        · exact absurd (congrArg Prod.snd h1) (by simp)
        · exact h1
      have hs := recursive_find_refs_list_isSome items refs path
      rw [find_refs_go]
      cases hh : recursive_find_refs_list items refs path with
      | none => rw [hh] at hs; simp at hs
      | some refs' => exact ih refs' hmem

/-- C5 witness: the abort theorem applied to a concrete one-file build. -/
theorem C5_parse_error_aborts_build_witness :
    ∃ e', find_refs [("bad.rs", Except.error Error.syn)] = some (Except.error e') :=
  C5_parse_error_aborts_build [("bad.rs", Except.error Error.syn)] "bad.rs" Error.syn
    (by simp)

/-- Popping an appended character restores the original string. -/
theorem strPop_push (s : String) (ch : Char) : strPop (s.push ch) = s := by
  cases s with
  | mk data => simp [strPop, String.push, String.toList]

/-- C1 counterexample: after the query "ab" is reduced to the non-empty query
"a" by a backspace, the ranked result set contains the record with signature
"xyz" (at score 0) even though "xyz" does not fuzzy-match "a". -/
theorem C1_counterexample :
    (backspaceStep (appendStep (appendStep (initialApp
        [⟨1, 0, "a.rs", "abc"⟩, ⟨2, 0, "a.rs", "xyz"⟩]) 'a') 'b')).input = "a" ∧
    "a" ≠ "" ∧
    (⟨2, 0, "a.rs", "xyz"⟩, (0 : Int)) ∈
      (backspaceStep (appendStep (appendStep (initialApp
        [⟨1, 0, "a.rs", "abc"⟩, ⟨2, 0, "a.rs", "xyz"⟩]) 'a') 'b')).results ∧
    fuzzy_match "xyz" "a" = none := by
  decide

/-- C1 amended: a result set reached by appending a character contains only
records whose signature fuzzy-matches the query, each with its score; a
result set reached by backspace instead contains every record of the index,
the non-matching ones with score 0. -/
theorem C1_append_filters_backspace_keeps_all (refs : List Ref) (q : String) :
    (∀ r p, (r, p) ∈ rankAppend refs q → fuzzy_match r.sig q = some p) ∧
    (rankBackspace refs q).map Prod.fst = refs := by
  constructor
  · intro r p h
    rcases List.mem_filterMap.mp h with ⟨a, _, hf⟩
    rcases Option.map_eq_some'.mp hf with ⟨v, hv, heq⟩
    injection heq with h1 h2
    subst h1
    subst h2
    exact hv
  · simp [rankBackspace, Function.comp_def]

/-- C1 witness: the amended theorem applied to a one-record index and the
query "a". -/
theorem C1_append_filters_backspace_keeps_all_witness :
    fuzzy_match "abc" "a" = some 1 ∧
    (rankBackspace [⟨1, 0, "a.rs", "abc"⟩] "a").map Prod.fst = [⟨1, 0, "a.rs", "abc"⟩] :=
  ⟨(C1_append_filters_backspace_keeps_all [⟨1, 0, "a.rs", "abc"⟩] "a").1
      ⟨1, 0, "a.rs", "abc"⟩ 1 (by decide),
   (C1_append_filters_backspace_keeps_all [⟨1, 0, "a.rs", "abc"⟩] "a").2⟩

/-- C3 counterexample: from the state reached by typing "a" (whose result set,
produced by the append path, excludes the non-matching record "xyz"),
appending 'b' and immediately backspacing yields a result set that now
contains "xyz" at score 0 — different membership, hence not the set produced
before the append. -/
theorem C3_counterexample :
    (backspaceStep (appendStep (appendStep (initialApp
        [⟨1, 0, "a.rs", "abc"⟩, ⟨2, 0, "a.rs", "xyz"⟩]) 'a') 'b')).results
      ≠ (appendStep (initialApp
        [⟨1, 0, "a.rs", "abc"⟩, ⟨2, 0, "a.rs", "xyz"⟩]) 'a').results := by
  decide

/-- C3 amended: appending one character and immediately removing it via
backspace restores the query string exactly, but the result set is recomputed
through the backspace path, so it equals the map over ALL records with
unwrap-or-zero scores (and therefore coincides with the pre-append set only
when that set already had this non-filtered shape). -/
theorem C3_append_backspace_requeries (s : AppState) (ch : Char) :
    (backspaceStep (appendStep s ch)).input = s.input ∧
    (backspaceStep (appendStep s ch)).results = rankBackspace s.refs s.input := by
  constructor
  · simp [backspaceStep, appendStep, strPop_push]
  · simp [backspaceStep, appendStep, strPop_push]

/-- Replacing the element at a valid position and re-consing the displaced
value is a permutation. -/
theorem getD_cons_set_perm :
    ∀ (xs : List (Ref × Int)) (m : Nat) (a : Ref × Int), m < xs.length →
      (xs.getD m dRef :: xs.set m a).Perm (a :: xs) := by
  intro xs
  induction xs with
  | nil => intro m a h; simp at h
  | cons y ys ih =>
    intro m a h
    cases m with
    | zero => simpa using List.Perm.swap a y ys
    | succ m =>
      have hm : m < ys.length := by simpa using h
      exact (List.Perm.swap y (ys.getD m dRef) (ys.set m a)).trans
        (((ih m a hm).cons y).trans (List.Perm.swap a y ys))

/-- Swapping two valid positions is a permutation. -/
theorem lswap_perm :
    ∀ (l : List (Ref × Int)) (i j : Nat), i < l.length → j < l.length →
      (lswap l i j).Perm l := by
  intro l
  induction l with
  | nil => intro i j hi _; simp at hi
  | cons x xs ih =>
    intro i j hi hj
    cases i with
    | zero =>
      cases j with
      | zero => simp [lswap]
      | succ j =>
        have hj' : j < xs.length := by simpa using hj
        simpa [lswap] using getD_cons_set_perm xs j x hj'
    | succ i =>
      cases j with
      | zero =>
        have hi' : i < xs.length := by simpa using hi
        simpa [lswap] using getD_cons_set_perm xs i x hi'
      | succ j =>
        have hi' : i < xs.length := by simpa using hi
        have hj' : j < xs.length := by simpa using hj
        simpa [lswap] using List.Perm.cons x (ih i j hi' hj')

/-- Sift-down permutes the list. -/
theorem heapifyDown_perm :
    ∀ (fuel : Nat) (l : List (Ref × Int)) (i : Nat), (heapifyDown fuel l i).Perm l := by
  intro fuel
  induction fuel with
  | zero => intro l i; exact List.Perm.refl _
  | succ fuel ih =>
    intro l i
    simp only [heapifyDown]
    by_cases c1 : 2 * i + 1 < l.length ∧ (l.getD (2 * i + 1) dRef).2 > (l.getD i dRef).2
    · rw [if_pos c1]
      by_cases c2 : 2 * i + 2 < l.length ∧ (l.getD (2 * i + 2) dRef).2 > (l.getD (2 * i + 1) dRef).2
      · rw [if_pos c2, if_neg (by omega : ¬(2 * i + 2 = i))]
        exact (ih _ _).trans (lswap_perm l i (2 * i + 2) (by omega) c2.1)
      · rw [if_neg c2, if_neg (by omega : ¬(2 * i + 1 = i))]
        exact (ih _ _).trans (lswap_perm l i (2 * i + 1) (by omega) c1.1)
    · rw [if_neg c1]
      by_cases c2 : 2 * i + 2 < l.length ∧ (l.getD (2 * i + 2) dRef).2 > (l.getD i dRef).2
      · rw [if_pos c2, if_neg (by omega : ¬(2 * i + 2 = i))]
        exact (ih _ _).trans (lswap_perm l i (2 * i + 2) (by omega) c2.1)
      · rw [if_neg c2, if_pos rfl]

/-- Dropping the last element commutes with a cons onto a non-empty tail. -/
theorem dropLast_cons_ne_nil (x : Ref × Int) (xs : List (Ref × Int)) (h : xs ≠ []) :
    (x :: xs).dropLast = x :: xs.dropLast := by
  cases xs with
  | nil => exact absurd rfl h
  | cons y ys => rfl

/-- Setting any position keeps a list non-empty. -/
theorem set_ne_nil (xs : List (Ref × Int)) (n : Nat) (a : Ref × Int) (h : xs ≠ []) :
    xs.set n a ≠ [] := by
  intro hc
  have hlc := congrArg List.length hc
  rw [List.length_set] at hlc
  simp only [List.length_nil] at hlc
  exact h (List.length_eq_zero.mp hlc)

/-- Overwriting the last element does not change the dropLast prefix. -/
theorem dropLast_set_last :
    ∀ (xs : List (Ref × Int)) (a : Ref × Int), xs ≠ [] →
      (xs.set (xs.length - 1) a).dropLast = xs.dropLast := by
  intro xs
  induction xs with
  | nil => intro a h; exact absurd rfl h
  | cons w ws ih =>
    intro a _
    cases ws with
    | nil => rfl
    | cons v vs =>
      show (w :: (v :: vs).set vs.length a).dropLast = (w :: v :: vs).dropLast
      rw [dropLast_cons_ne_nil w ((v :: vs).set vs.length a)
            (set_ne_nil (v :: vs) vs.length a (by simp)),
          dropLast_cons_ne_nil w (v :: vs) (by simp)]
      have := ih a (by simp)
      simpa using congrArg (List.cons w) this

/-- A non-empty list is a permutation of its last element consed onto its
dropLast prefix. -/
theorem perm_last_cons_dropLast :
    ∀ (xs : List (Ref × Int)), xs ≠ [] →
      xs.Perm (xs.getD (xs.length - 1) dRef :: xs.dropLast) := by
  intro xs
  induction xs with
  | nil => intro h; exact absurd rfl h
  | cons w ws ih =>
    intro _
    cases ws with
    | nil => simp
    | cons v vs =>
      show (w :: v :: vs).Perm ((v :: vs).getD vs.length dRef :: (w :: v :: vs).dropLast)
      rw [dropLast_cons_ne_nil w (v :: vs) (by simp)]
      have hih : (v :: vs).Perm ((v :: vs).getD vs.length dRef :: (v :: vs).dropLast) :=
        ih (by simp)
      exact (hih.cons w).trans
        (List.Perm.swap ((v :: vs).getD vs.length dRef) w (v :: vs).dropLast)

/-- One pop step: swapping the root to the last slot and dropping it leaves a
list whose root-cons is a permutation of the original. -/
theorem perm_pop_step (x : Ref × Int) (xs : List (Ref × Int)) (h : xs ≠ []) :
    (x :: xs).Perm (x :: (lswap (x :: xs) 0 ((x :: xs).length - 1)).dropLast) := by
  have hlen : (x :: xs).length - 1 = (xs.length - 1) + 1 := by
    cases xs with
    | nil => exact absurd rfl h
    | cons _ _ => simp
  have hz : (x :: xs).getD ((xs.length - 1) + 1) dRef = xs.getD (xs.length - 1) dRef := by
    simp
  have hswap : lswap (x :: xs) 0 ((x :: xs).length - 1)
      = xs.getD (xs.length - 1) dRef :: xs.set (xs.length - 1) x := by
    rw [hlen]
    simp only [lswap, hz, List.getD_cons_zero, List.set_cons_zero, List.set_cons_succ]
  rw [hswap, dropLast_cons_ne_nil _ (xs.set (xs.length - 1) x) (set_ne_nil xs _ x h),
      dropLast_set_last xs x h]
  exact (perm_last_cons_dropLast xs h).cons x

/-- Popping the whole heap returns a permutation of it (given enough fuel). -/
theorem popAll_perm :
    ∀ (fuel : Nat) (l : List (Ref × Int)), l.length ≤ fuel → (popAll fuel l).Perm l := by
  intro fuel
  induction fuel with
  | zero =>
    intro l h
    cases l with
    | nil => exact List.Perm.refl _
    | cons x xs => simp at h
  | succ fuel ih =>
    intro l h
    match l with
    | [] => exact List.Perm.refl _
    | [x] => exact List.Perm.refl _
    | x :: y :: rest =>
      have hne : (y :: rest : List (Ref × Int)) ≠ [] := by simp
      have hlen1 : (lswap (x :: y :: rest) 0 ((x :: y :: rest).length - 1)).length
          = (x :: y :: rest).length := by
        simp [lswap, List.length_set]
      have hlen2 : ((lswap (x :: y :: rest) 0 ((x :: y :: rest).length - 1)).dropLast).length
          = rest.length + 1 := by
        rw [List.length_dropLast, hlen1]
        simp
      have hheap := heapifyDown_perm
        ((lswap (x :: y :: rest) 0 ((x :: y :: rest).length - 1)).dropLast).length
        ((lswap (x :: y :: rest) 0 ((x :: y :: rest).length - 1)).dropLast) 0
      have hlen3 : (heapifyDown
          ((lswap (x :: y :: rest) 0 ((x :: y :: rest).length - 1)).dropLast).length
          ((lswap (x :: y :: rest) 0 ((x :: y :: rest).length - 1)).dropLast) 0).length ≤ fuel := by
        rw [hheap.length_eq, hlen2]
        have hh : rest.length + 2 ≤ fuel + 1 := by simpa using h
        omega
      show ((x :: y :: rest).getD 0 dRef :: popAll fuel (heapifyDown
          ((lswap (x :: y :: rest) 0 ((x :: y :: rest).length - 1)).dropLast).length
          ((lswap (x :: y :: rest) 0 ((x :: y :: rest).length - 1)).dropLast) 0)).Perm
        (x :: y :: rest)
      exact (((ih _ hlen3).trans hheap).cons _).trans
        (perm_pop_step x (y :: rest) hne).symm

/-- Floyd's heap construction permutes the collected list. -/
theorem heapBuild_perm (l : List (Ref × Int)) : (heapBuild l).Perm l := by
  suffices h : ∀ (idxs : List Nat) (acc : List (Ref × Int)),
      (idxs.foldl (fun acc i => heapifyDown acc.length acc i) acc).Perm acc by
    exact h _ l
  intro idxs
  induction idxs with
  | nil => intro acc; exact List.Perm.refl _
  | cons i rest ih =>
    intro acc
    exact (ih (heapifyDown acc.length acc i)).trans (heapifyDown_perm _ _ _)

/-- The displayed (descending-priority) order is a permutation of the
collected result pairs. -/
theorem into_sorted_list_perm (xs : List (Ref × Int)) : (into_sorted_list xs).Perm xs := by
  exact (popAll_perm _ _ (Nat.le_refl _)).trans (heapBuild_perm xs)

/-- The empty pattern is a subsequence of anything. -/
theorem isSubseqChars_nil (l : List Char) : isSubseqChars [] l = true := by
  cases l <;> rfl

/-- The empty query matches every signature with the trivial score 0. -/
theorem fuzzy_match_empty (c : String) : fuzzy_match c "" = some 0 := by
  unfold fuzzy_match
  rw [show ("".toList.map charLower) = [] from rfl, isSubseqChars_nil]
  rfl

/-- Backspacing down to the empty query scores every record 0, i.e. rebuilds
exactly the initial result pairs. -/
theorem rankBackspace_empty (refs : List Ref) :
    rankBackspace refs "" = initialResults refs := by
  unfold rankBackspace initialResults
  induction refs with
  | nil => rfl
  | cons r rs ih =>
    rw [List.map_cons, List.map_cons, ih, fuzzy_match_empty r.sig]
    rfl

/-- C2 counterexample: with three records all at the empty-query score 0, the
priority queue's pop order (what the result list displays and what selection
indexes) is first, third, second — not the original insertion order. -/
theorem C2_counterexample :
    into_sorted_vec (initialResults
        [⟨1, 0, "a.rs", "aa"⟩, ⟨2, 0, "a.rs", "bb"⟩, ⟨3, 0, "a.rs", "cc"⟩])
      ≠ [⟨1, 0, "a.rs", "aa"⟩, ⟨2, 0, "a.rs", "bb"⟩, ⟨3, 0, "a.rs", "cc"⟩] := by
  decide

/-- C2 amended: for the empty query (initial state or after backspacing down
to empty) the ranked result set contains exactly every record of the index,
each with score 0, but its displayed order is the priority heap's pop order —
a deterministic permutation of the index that is not in general the original
insertion order. -/
theorem C2_empty_query_results (refs : List Ref) :
    (initialResults refs).map Prod.fst = refs ∧
    (∀ x ∈ initialResults refs, x.2 = 0) ∧
    rankBackspace refs "" = initialResults refs ∧
    (into_sorted_vec (initialResults refs)).Perm refs := by
  have h1 : (initialResults refs).map Prod.fst = refs := by
    simp [initialResults, Function.comp_def]
  refine ⟨h1, ?_, rankBackspace_empty refs, ?_⟩
  · intro x hx
    rcases List.mem_map.mp hx with ⟨r, _, rfl⟩
    rfl
  · have h4 := (into_sorted_list_perm (initialResults refs)).map Prod.fst
    rw [h1] at h4
    exact h4

/-- C2 witness: the amended theorem applied to a concrete one-record index. -/
theorem C2_empty_query_results_witness :
    (((⟨1, 0, "a.rs", "aa"⟩ : Ref), (0 : Int)).2 = 0) ∧
    (into_sorted_vec (initialResults [⟨1, 0, "a.rs", "aa"⟩])).Perm [⟨1, 0, "a.rs", "aa"⟩] :=
  ⟨(C2_empty_query_results [⟨1, 0, "a.rs", "aa"⟩]).2.1 ((⟨1, 0, "a.rs", "aa"⟩ : Ref), (0 : Int))
      (by decide),
   (C2_empty_query_results [⟨1, 0, "a.rs", "aa"⟩]).2.2.2⟩

/-- C9: ranking is deterministic: the displayed ordering is a function of the
`(index, query)` pair alone (no randomness enters: the queue's backing index
map hands out slots in insertion order and all heap steps compare priorities
only), so computing it twice — also across separate runs over the same
index — yields identical orderings, ties between equal scores being broken by
the heap's fixed layout rule. -/
theorem C9_rank_deterministic (refs : List Ref) (q : String)
    (xs ys : List (Ref × Int))
    (h1 : xs = rankedOrder refs q) (h2 : ys = rankedOrder refs q) : xs = ys :=
  h1.trans h2.symm

/-- C9 witness: two computations of a concrete ranking coincide. -/
theorem C9_rank_deterministic_witness :
    rankedOrder [⟨1, 0, "a.rs", "abc"⟩] "a" = rankedOrder [⟨1, 0, "a.rs", "abc"⟩] "a" :=
  C9_rank_deterministic [⟨1, 0, "a.rs", "abc"⟩] "a" _ _ rfl rfl

/-- C6: after a render the selection cursor, when present, is inside
`[0, len(results))`; confirming with an empty result set (or with no valid
cursor) is a no-op that stays in the editing loop; and the confirm action
never fails: the indexing into the sorted results cannot go out of bounds
because the render preceding every Enter clamps the cursor. -/
theorem C6_confirm_safe (results : List (Ref × Int)) (sel : Option Nat) :
    (∀ i, renderClamp (into_sorted_list results).length sel = some i →
        i < (into_sorted_list results).length) ∧
    (results = [] → confirmAfterRender results sel = ConfirmOutcome.continueEditing) ∧
    (renderClamp (into_sorted_list results).length sel = none →
        confirmAfterRender results sel = ConfirmOutcome.continueEditing) ∧
    confirmAfterRender results sel ≠ ConfirmOutcome.panicked := by
  have h1 : ∀ i, renderClamp (into_sorted_list results).length sel = some i →
      i < (into_sorted_list results).length := by
    intro i hi
    unfold renderClamp at hi
    by_cases h0 : (into_sorted_list results).length = 0
    · rw [if_pos h0] at hi
      exact absurd hi (by simp)
    · rw [if_neg h0] at hi
      rcases Option.map_eq_some'.mp hi with ⟨j, _, rfl⟩
      have hm := Nat.min_le_right j ((into_sorted_list results).length - 1)
      omega
  refine ⟨h1, ?_, ?_, ?_⟩
  · intro h
    subst h
    rfl
  · intro h
    unfold confirmAfterRender confirmStep
    rw [h]
  · cases hcl : renderClamp (into_sorted_list results).length sel with
    | none =>
      unfold confirmAfterRender confirmStep
      rw [hcl]
      simp
    | some i =>
      have hlt : i < (into_sorted_vec results).length := by
        rw [into_sorted_vec, List.length_map]
        exact h1 i hcl
      have hred : confirmAfterRender results sel
          = match (into_sorted_vec results)[i]? with
            | some r => ConfirmOutcome.selected r
            | none => ConfirmOutcome.panicked := by
        unfold confirmAfterRender confirmStep
        rw [hcl]
      rw [hred, List.getElem?_eq_getElem hlt]
      simp

/-- C6 witness: with a one-element result list and a stale out-of-range
cursor, the rendered cursor is valid and the confirm does not fail. -/
theorem C6_confirm_safe_witness :
    0 < (into_sorted_list [((⟨1, 0, "a.rs", "aa"⟩ : Ref), (2 : Int))]).length ∧
    confirmAfterRender [((⟨1, 0, "a.rs", "aa"⟩ : Ref), (2 : Int))] (some 5)
      ≠ ConfirmOutcome.panicked :=
  ⟨(C6_confirm_safe [((⟨1, 0, "a.rs", "aa"⟩ : Ref), (2 : Int))] (some 5)).1 0 (by decide),
   (C6_confirm_safe [((⟨1, 0, "a.rs", "aa"⟩ : Ref), (2 : Int))] (some 5)).2.2.2⟩

/-- `winSetCursor` really sets the cursor of every window carrying the target
handle. -/
theorem winSetCursor_sets_target (e : Editor) (t : Nat) (pos : Nat × Nat) :
    ∀ w ∈ (winSetCursor e t pos).wins, w.id = t → w.cursor = pos := by
  intro w hw hid
  rcases List.mem_map.mp hw with ⟨w0, _, rfl⟩
  by_cases h0 : w0.id = t
  · simp [h0]
  · rw [if_neg h0] at hid
    exact absurd hid h0

/-- C7 counterexample: navigating to `/p/foo.rs` in an editor whose only
buffer is `/p/bar.rs` leaves the buffer list exactly as it was — no new
buffer is created and no buffer named `/p/foo.rs` exists afterwards. -/
theorem C7_counterexample :
    (select_callback
        (Editor.mk [⟨1, "/p/bar.rs", true, ""⟩] [⟨1, 1, (1, 0)⟩, ⟨2, 1, (1, 0)⟩] 1 1)
        ⟨5, 4, "/p/foo.rs", "pub fn foo()"⟩).map Editor.bufs
      = Except.ok [⟨1, "/p/bar.rs", true, ""⟩] ∧
    (([⟨1, "/p/bar.rs", true, ""⟩] : List Buf).all (fun b => ¬ b.name = "/p/foo.rs")) = true := by
  exact ⟨rfl, by decide⟩

/-- C7 amended: the navigation callback actually used never creates a buffer:
when no open buffer's name equals the target file it leaves the buffer list
untouched (it only hides the original window and sets a cursor).  The
create-and-restore behaviour the claim describes lives only in the unused
helper `find_or_open_buf`, which does create exactly one new listed buffer
bound to the file by the open command and does restore the previously
current buffer. -/
theorem C7_live_callback_never_creates_buffer (e : Editor) (selection : Ref)
    (h : ∀ b ∈ e.bufs, b.name ≠ selection.file) :
    (select_callback e selection).map Editor.bufs = Except.ok e.bufs ∧
    ∃ e' nb, find_or_open_buf e selection = Except.ok (e', nb) ∧
      e'.curBuf = e.curBuf ∧
      e'.bufs.length = e.bufs.length + 1 ∧
      ∃ b ∈ e'.bufs, b.id = nb ∧ b.name = selection.file := by
  have hnone : e.bufs.find? (fun buf => buf.name = selection.file) = none := by
    rw [List.find?_eq_none]
    intro b hb
    simpa using h b hb
  constructor
  · simp only [select_callback]
    rw [show (hideWin e e.curWin).bufs.find? (fun buf => buf.name = selection.file) = none
          from hnone]
    rfl
  · unfold find_or_open_buf
    rw [hnone]
    refine ⟨_, freshBufId e, rfl, rfl, ?_, ?_⟩
    · simp
    · refine ⟨({ id := freshBufId e, name := selection.file, listed := true, buftype := "" } : Buf),
        ?_, rfl, rfl⟩
      apply List.mem_map.mpr
      refine ⟨({ id := freshBufId e, name := "", listed := true, buftype := "" } : Buf), ?_, ?_⟩
      · simp
      · simp

/-- C7 witness: the amended theorem at a concrete editor with one unrelated
buffer. -/
theorem C7_live_callback_never_creates_buffer_witness :
    (select_callback
        (Editor.mk [⟨1, "/p/bar.rs", true, ""⟩] [⟨1, 1, (1, 0)⟩, ⟨2, 1, (1, 0)⟩] 1 1)
        ⟨5, 4, "/p/foo.rs", "pub fn foo()"⟩).map Editor.bufs
      = Except.ok (Editor.mk [⟨1, "/p/bar.rs", true, ""⟩] [⟨1, 1, (1, 0)⟩, ⟨2, 1, (1, 0)⟩] 1 1).bufs ∧
    ∃ e' nb, find_or_open_buf
        (Editor.mk [⟨1, "/p/bar.rs", true, ""⟩] [⟨1, 1, (1, 0)⟩, ⟨2, 1, (1, 0)⟩] 1 1)
        ⟨5, 4, "/p/foo.rs", "pub fn foo()"⟩ = Except.ok (e', nb) ∧
      e'.curBuf = (Editor.mk [⟨1, "/p/bar.rs", true, ""⟩] [⟨1, 1, (1, 0)⟩, ⟨2, 1, (1, 0)⟩] 1 1).curBuf ∧
      e'.bufs.length = (Editor.mk [⟨1, "/p/bar.rs", true, ""⟩] [⟨1, 1, (1, 0)⟩, ⟨2, 1, (1, 0)⟩] 1 1).bufs.length + 1 ∧
      ∃ b ∈ e'.bufs, b.id = nb ∧ b.name = (⟨5, 4, "/p/foo.rs", "pub fn foo()"⟩ : Ref).file :=
  C7_live_callback_never_creates_buffer
    (Editor.mk [⟨1, "/p/bar.rs", true, ""⟩] [⟨1, 1, (1, 0)⟩, ⟨2, 1, (1, 0)⟩] 1 1)
    ⟨5, 4, "/p/foo.rs", "pub fn foo()"⟩ (by decide)

/-- C8 counterexample: in an editor whose every window shows a terminal
buffer — so no "suitable" window in the claim's sense exists and
`select_window`'s candidate list is empty — navigation nevertheless succeeds
(it uses the current window) instead of failing with the no-suitable-window
error. -/
theorem C8_counterexample :
    selectableWindows
        (Editor.mk [⟨1, "term://sh", true, "terminal"⟩] [⟨1, 1, (1, 0)⟩, ⟨2, 1, (1, 0)⟩] 1 1)
      = [] ∧
    (select_callback
        (Editor.mk [⟨1, "term://sh", true, "terminal"⟩] [⟨1, 1, (1, 0)⟩, ⟨2, 1, (1, 0)⟩] 1 1)
        ⟨5, 4, "/p/foo.rs", "pub fn foo()"⟩).toOption.isSome = true ∧
    select_callback
        (Editor.mk [⟨1, "term://sh", true, "terminal"⟩] [⟨1, 1, (1, 0)⟩, ⟨2, 1, (1, 0)⟩] 1 1)
        ⟨5, 4, "/p/foo.rs", "pub fn foo()"⟩ ≠ Except.error Error.noWindow := by
  refine ⟨rfl, rfl, ?_⟩
  intro hc
  exact absurd (congrArg Except.toOption hc) (by decide)

/-- C8 amended: navigation performs no buffer-type window selection at all:
even when no window shows a normal editable buffer (the unused
`select_window` helper's candidate filter is empty), `select_callback`
succeeds, never returns the `NoWindow` error (which no code constructs), and
sets the cursor on the editor's current window — the one that is current
after the callback hides the window it started from. -/
theorem C8_navigation_ignores_buffer_type (e : Editor) (selection : Ref)
    (_h : selectableWindows e = []) :
    select_callback e selection ≠ Except.error Error.noWindow ∧
    ∃ e', select_callback e selection = Except.ok e' ∧
      ∀ w ∈ e'.wins, w.id = (hideWin e e.curWin).curWin →
        w.cursor = (selection.line, selection.column) := by
  simp only [select_callback]
  cases hf : (hideWin e e.curWin).bufs.find? (fun buf => buf.name = selection.file) with
  | none =>
    refine ⟨fun hc => Except.noConfusion hc, _, rfl, ?_⟩
    exact winSetCursor_sets_target (hideWin e e.curWin) (hideWin e e.curWin).curWin _
  | some b =>
    refine ⟨fun hc => Except.noConfusion hc, _, rfl, ?_⟩
    exact winSetCursor_sets_target
      (winSetBuf (setListed (hideWin e e.curWin) b.id) (hideWin e e.curWin).curWin b.id)
      (hideWin e e.curWin).curWin _

/-- C8 witness: the amended theorem at the all-terminal-windows editor. -/
theorem C8_navigation_ignores_buffer_type_witness :
    select_callback
        (Editor.mk [⟨1, "term://sh", true, "terminal"⟩] [⟨1, 1, (1, 0)⟩, ⟨2, 1, (1, 0)⟩] 1 1)
        ⟨5, 4, "/p/foo.rs", "pub fn foo()"⟩ ≠ Except.error Error.noWindow ∧
    ∃ e', select_callback
        (Editor.mk [⟨1, "term://sh", true, "terminal"⟩] [⟨1, 1, (1, 0)⟩, ⟨2, 1, (1, 0)⟩] 1 1)
        ⟨5, 4, "/p/foo.rs", "pub fn foo()"⟩ = Except.ok e' ∧
      ∀ w ∈ e'.wins, w.id = (hideWin
          (Editor.mk [⟨1, "term://sh", true, "terminal"⟩] [⟨1, 1, (1, 0)⟩, ⟨2, 1, (1, 0)⟩] 1 1)
          (Editor.mk [⟨1, "term://sh", true, "terminal"⟩] [⟨1, 1, (1, 0)⟩, ⟨2, 1, (1, 0)⟩] 1 1).curWin).curWin →
        w.cursor = ((⟨5, 4, "/p/foo.rs", "pub fn foo()"⟩ : Ref).line,
          (⟨5, 4, "/p/foo.rs", "pub fn foo()"⟩ : Ref).column) :=
  C8_navigation_ignores_buffer_type
    (Editor.mk [⟨1, "term://sh", true, "terminal"⟩] [⟨1, 1, (1, 0)⟩, ⟨2, 1, (1, 0)⟩] 1 1)
    ⟨5, 4, "/p/foo.rs", "pub fn foo()"⟩ (by decide)

